import Mathlib

/-!
Verification development for the Stochastic-RSI / SMI alert system.

The Python sources are embedded shallowly:
* pandas/numpy floating-point series become lists over `PF`, an extended
  rational type with `nan`, `inf` and `ninf` sentinels mirroring IEEE
  special values as pandas produces and compares them;
* the JSON-backed alert caches become association lists with explicit
  lookup/insert/erase;
* wall-clock datetimes become rational minute counts passed explicitly.
-/

/-- Pandas/numpy scalar: a rational number or one of the IEEE sentinels
`nan`, `+inf`, `-inf` that the pipeline produces via division. -/
inductive PF where
  | num (q : ℚ)
  | nan
  | inf
  | ninf
deriving DecidableEq, Repr

/-- Negation of a pandas scalar. -/
def PF.neg : PF → PF
  | .num q => .num (-q)
  | .nan => .nan
  | .inf => .ninf
  | .ninf => .inf

/-- Addition: `nan` absorbs, `inf + (-inf)` is `nan`, as in IEEE/pandas. -/
def PF.add : PF → PF → PF
  | .nan, _ => .nan
  | _, .nan => .nan
  | .num a, .num b => .num (a + b)
  | .inf, .ninf => .nan
  | .ninf, .inf => .nan
  | .inf, _ => .inf
  | _, .inf => .inf
  | .ninf, _ => .ninf
  | _, .ninf => .ninf

/-- Subtraction, defined as addition of the negation. -/
def PF.sub (a b : PF) : PF := PF.add a (PF.neg b)

/-- Multiplication: `nan` absorbs and `0 * inf` is `nan`, as in IEEE. -/
def PF.mul : PF → PF → PF
  | .nan, _ => .nan
  | _, .nan => .nan
  | .num a, .num b => .num (a * b)
  | .inf, .inf => .inf
  | .inf, .ninf => .ninf
  | .ninf, .inf => .ninf
  | .ninf, .ninf => .inf
  | .num a, .inf => if a > 0 then .inf else if a < 0 then .ninf else .nan
  | .num a, .ninf => if a > 0 then .ninf else if a < 0 then .inf else .nan
  | .inf, .num b => if b > 0 then .inf else if b < 0 then .ninf else .nan
  | .ninf, .num b => if b > 0 then .ninf else if b < 0 then .inf else .nan

/-- Division: `x/0` follows numpy (`0/0 = nan`, `±x/0 = ±inf`), a finite
value divided by an infinity is `0`, `inf/inf` is `nan`. -/
def PF.div : PF → PF → PF
  | .nan, _ => .nan
  | _, .nan => .nan
  | .num a, .num b =>
      if b = 0 then (if a = 0 then .nan else if a > 0 then .inf else .ninf)
      else .num (a / b)
  | .num _, .inf => .num 0
  | .num _, .ninf => .num 0
  | .inf, .num b => if b < 0 then .ninf else .inf
  | .ninf, .num b => if b < 0 then .inf else .ninf
  | .inf, .inf => .nan
  | .inf, .ninf => .nan
  | .ninf, .inf => .nan
  | .ninf, .ninf => .nan

/-- Python float `<=`: any comparison with `nan` is false. -/
def PF.le : PF → PF → Bool
  | .nan, _ => false
  | _, .nan => false
  | .num a, .num b => a ≤ b
  | .ninf, _ => true
  | _, .inf => true
  | _, _ => false

/-- Python float `<`: any comparison with `nan` is false. -/
def PF.lt : PF → PF → Bool
  | .nan, _ => false
  | _, .nan => false
  | .num a, .num b => a < b
  | .inf, _ => false
  | _, .inf => true
  | _, .ninf => false
  | .ninf, _ => true

/-- Mirrors `np.isnan` (false on infinities). -/
def PF.isnan : PF → Bool
  | .nan => true
  | _ => false

/-- Elementwise `Series.replace([np.inf, -np.inf], r)`. -/
def replaceInfWith (r : PF) : PF → PF
  | .inf => r
  | .ninf => r
  | x => x

/-- Association-list lookup, modelling `dict.__getitem__` / `in`. -/
def lookupKey {κ β : Type} [DecidableEq κ] : List (κ × β) → κ → Option β
  | [], _ => none
  | (k', v) :: rest, k => if k = k' then some v else lookupKey rest k

/-- Erase every binding of a key, modelling `del dict[key]`. -/
def eraseKey {κ β : Type} [DecidableEq κ] (st : List (κ × β)) (k : κ) :
    List (κ × β) :=
  st.filter (fun e => ¬ (e.1 = k))

/-- Overwriting insert, modelling `dict[key] = value`. -/
def insertKey {κ β : Type} [DecidableEq κ] (st : List (κ × β)) (k : κ)
    (v : β) : List (κ × β) :=
  (k, v) :: eraseKey st k

/-- Recursive tail of `Series.ewm(adjust=False).mean()` over defined values:
`ynext = (1-alpha)*y + alpha*x`. -/
def ewmGo (α : ℚ) (y : ℚ) : List ℚ → List ℚ
  | [] => []
  | x :: xs => ((1 - α) * y + α * x) :: ewmGo α ((1 - α) * y + α * x) xs

/-- Embeds `Series.ewm(alpha, adjust=False).mean()` on a fully defined series:
the first output equals the first input, then the recursion above. -/
def ewmAdjFalse (α : ℚ) : List ℚ → List ℚ
  | [] => []
  | x :: xs => x :: ewmGo α x xs

/-- Recursive tail of pandas ewm over a `PF` series once a first defined
value seeded the state.  Inputs arriving from `rolling(min_periods=window)`
have their undefined entries only as a prefix, so the undefined branch
below (carry the state forward) is never exercised by this pipeline. -/
def ewmPFGo (α : ℚ) (y : ℚ) : List PF → List PF
  | [] => []
  | .num x :: xs => .num ((1 - α) * y + α * x) :: ewmPFGo α ((1 - α) * y + α * x) xs
  | _ :: xs => .num y :: ewmPFGo α y xs

/-- Pandas `ewm(adjust=False).mean()` over a `PF` series: a leading run of
undefined values is emitted unchanged, the first defined value seeds the
recursion. -/
def ewmPF (α : ℚ) : List PF → List PF
  | [] => []
  | .num x :: xs => .num x :: ewmPFGo α x xs
  | x :: xs => x :: ewmPF α xs

/-- Pine-style span EMA, `pd.Series(s).ewm(span=length, adjust=False)`:
alpha is `2/(length+1)`. -/
def emaSpan (length : ℕ) (xs : List PF) : List PF :=
  ewmPF (2 / ((length : ℚ) + 1)) xs

/-- Embeds `emaEma(source, length) = ema(ema(source, length), length)` from the
SMI engines. -/
def emaEma (length : ℕ) (xs : List PF) : List PF :=
  emaSpan length (emaSpan length xs)

/-- The window of the last `len` entries ending at index `i` (current bar
included), as pandas `rolling(window=len)` sees it. -/
def windowAt (len : ℕ) (xs : List PF) (i : ℕ) : List PF :=
  (xs.take (i + 1)).drop (i + 1 - len)

/-- Binary max on pandas scalars: `nan` poisons the rolling aggregate
(pandas masks any window whose observation count drops below
`min_periods`). -/
def pfMax : PF → PF → PF
  | .nan, _ => .nan
  | _, .nan => .nan
  | .inf, _ => .inf
  | _, .inf => .inf
  | .ninf, b => b
  | a, .ninf => a
  | .num a, .num b => .num (max a b)

/-- Binary min on pandas scalars, dual to `pfMax`. -/
def pfMin : PF → PF → PF
  | .nan, _ => .nan
  | _, .nan => .nan
  | .ninf, _ => .ninf
  | _, .ninf => .ninf
  | .inf, b => b
  | a, .inf => a
  | .num a, .num b => .num (min a b)

/-- Embeds `Series.rolling(window=len, min_periods=len).max()`: undefined until the
window is full or while it contains an undefined value. -/
def rollingMax (len : ℕ) (xs : List PF) : List PF :=
  (List.range xs.length).map fun i =>
    if i + 1 < len then PF.nan else (windowAt len xs i).foldr pfMax PF.ninf

/-- Embeds `Series.rolling(window=len, min_periods=len).min()`, dual to
`rollingMax`. -/
def rollingMin (len : ℕ) (xs : List PF) : List PF :=
  (List.range xs.length).map fun i =>
    if i + 1 < len then PF.nan else (windowAt len xs i).foldr pfMin PF.inf

/-- Per-step gains of `src.diff().where(delta > 0, 0.0)`: the undefined
first difference is replaced by `0.0` because `nan > 0` is false. -/
def gainsOf : List ℚ → List ℚ
  | [] => []
  | x :: xs => 0 :: List.zipWith (fun prev cur => max (cur - prev) 0) (x :: xs) xs

/-- Per-step losses `-delta.where(delta < 0, 0.0)`, dual to `gainsOf`. -/
def lossesOf : List ℚ → List ℚ
  | [] => []
  | x :: xs => 0 :: List.zipWith (fun prev cur => max (prev - cur) 0) (x :: xs) xs

/-- The `min_periods` mask of `ewm(..., min_periods=m)`: the recursion runs
from the start but the first `m - 1` outputs are reported as undefined. -/
def maskMinPeriods (m : ℕ) (l : List ℚ) : List PF :=
  (List.range l.length).map fun i =>
    if i + 1 < m then PF.nan else PF.num (l.getD i 0)

/-- Embeds `gain.ewm(alpha=1/length, min_periods=length, adjust=False).mean()` from
`calculate_rsi` / `calculate_rsi_tradingview`. -/
def avgGain (length : ℕ) (src : List ℚ) : List PF :=
  maskMinPeriods length (ewmAdjFalse (1 / (length : ℚ)) (gainsOf src))

/-- Wilder-smoothed average loss, dual to `avgGain`. -/
def avgLoss (length : ℕ) (src : List ℚ) : List PF :=
  maskMinPeriods length (ewmAdjFalse (1 / (length : ℚ)) (lossesOf src))

/-- Embeds `calculate_rsi` from `stoch_rsi.py` / `main.py`:
`rs = avg_gain/avg_loss; rsi = 100 - 100/(1 + rs)` with no replacement of
infinite `rs`. -/
def calculate_rsi (src : List ℚ) (length : ℕ) : List PF :=
  (List.range src.length).map fun i =>
    let rs := PF.div ((avgGain length src).getD i .nan) ((avgLoss length src).getD i .nan)
    PF.sub (.num 100) (PF.div (.num 100) (PF.add (.num 1) rs))

/-- Embeds `calculate_rsi_tradingview` from `src/stochastic_rsi.py`: identical to
`calculate_rsi` except that `rs.replace([inf, -inf], nan)` runs before the
final formula. -/
def calculate_rsi_tradingview (src : List ℚ) (length : ℕ) : List PF :=
  (List.range src.length).map fun i =>
    let rs := PF.div ((avgGain length src).getD i .nan) ((avgLoss length src).getD i .nan)
    PF.sub (.num 100) (PF.div (.num 100) (PF.add (.num 1) (replaceInfWith .nan rs)))

/-- Embeds `calculate_stoch` from `stoch_rsi.py` / `main.py`:
`100 * (src - lowest)/(highest - lowest)` with infinities replaced by
`nan`. -/
def calculate_stoch (src high low : List PF) (length : ℕ) : List PF :=
  let lowest_low := rollingMin length low
  let highest_high := rollingMax length high
  (List.range src.length).map fun i =>
    replaceInfWith .nan
      (PF.mul (.num 100)
        (PF.div (PF.sub (src.getD i .nan) (lowest_low.getD i .nan))
          (PF.sub (highest_high.getD i .nan) (lowest_low.getD i .nan))))

/-- Embeds `calculate_stochastic_tradingview` from `src/stochastic_rsi.py`: the
same rolling transform applied to one series used as source, high and low,
but with infinities replaced by `0` instead of `nan`. -/
def calculate_stochastic_tradingview (values : List PF) (period : ℕ) : List PF :=
  let lowest := rollingMin period values
  let highest := rollingMax period values
  (List.range values.length).map fun i =>
    replaceInfWith (.num 0)
      (PF.mul (.num 100)
        (PF.div (PF.sub (values.getD i .nan) (lowest.getD i .nan))
          (PF.sub (highest.getD i .nan) (lowest.getD i .nan))))

/-- The rolling-range series `highest_high - lowest_low` of the SMI engines
(`rolling(window=length_k)` defaults `min_periods` to the window size, so
this matches both the standalone and the test variant). -/
def smiRange (length_k : ℕ) (high low : List ℚ) : List PF :=
  let highest_high := rollingMax length_k (high.map PF.num)
  let lowest_low := rollingMin length_k (low.map PF.num)
  (List.range high.length).map fun i =>
    PF.sub (highest_high.getD i .nan) (lowest_low.getD i .nan)

/-- The SMI midpoint-relative series
`close - (highest_high + lowest_low) / 2`. -/
def smiRelative (length_k : ℕ) (high low close : List ℚ) : List PF :=
  let highest_high := rollingMax length_k (high.map PF.num)
  let lowest_low := rollingMin length_k (low.map PF.num)
  (List.range close.length).map fun i =>
    PF.sub (.num (close.getD i 0))
      (PF.div (PF.add (highest_high.getD i .nan) (lowest_low.getD i .nan)) (.num 2))

/-- SMI numerator `ema_ema(relative_range, length_d)`. -/
def smiNumerator (length_k length_d : ℕ) (high low close : List ℚ) : List PF :=
  emaEma length_d (smiRelative length_k high low close)

/-- SMI denominator `ema_ema(highest_lowest_range, length_d)`. -/
def smiDenominator (length_k length_d : ℕ) (high low : List ℚ) : List PF :=
  emaEma length_d (smiRange length_k high low)

/-- Numpy elementwise `x != 0` as used for the valid mask in
`SMIStandalone.calculate_smi` / `SMIDebug.calculate_smi`: note that
`nan != 0` and `inf != 0` are both `True`. -/
def npNeZero : PF → Bool
  | .num q => q ≠ 0
  | _ => true

/-- Embeds `%K` of `SMIStandalone.calculate_smi` (identical code in
`SMIDebug.calculate_smi`): the output array starts as `np.zeros_like(close)`
and only positions with `denominator != 0` are overwritten by
`200 * numerator/denominator`, so a zero denominator leaves the literal
`0.0` in place. -/
def smiK_standalone (length_k length_d : ℕ) (high low close : List ℚ) : List PF :=
  let nume := smiNumerator length_k length_d high low close
  let deno := smiDenominator length_k length_d high low
  (List.range close.length).map fun i =>
    if npNeZero (deno.getD i .nan) then
      PF.mul (.num 200) (PF.div (nume.getD i .nan) (deno.getD i .nan))
    else .num 0

/-- The valid mask of `TestSMI.calculate_smi`:
`(~np.isnan(denominator)) & (np.abs(denominator) > 1e-10)`. -/
def npValidEps : PF → Bool
  | .nan => false
  | .num q => |q| > 1 / 10 ^ 10
  | _ => true

/-- Embeds `%K` of `TestSMI.calculate_smi`: the output array starts as
`np.full_like(close, nan)` and only positions passing `npValidEps` are
overwritten by `200 * numerator/denominator`. -/
def smiK_test (length_k length_d : ℕ) (high low close : List ℚ) : List PF :=
  let nume := smiNumerator length_k length_d high low close
  let deno := smiDenominator length_k length_d high low
  (List.range close.length).map fun i =>
    if npValidEps (deno.getD i .nan) then
      PF.mul (.num 200) (PF.div (nume.getD i .nan) (deno.getD i .nan))
    else .nan

/-- Embeds `determine_signal` from `main.py` / `stoch_rsi.py`: both lines must be
beyond the (inclusive) threshold for a non-neutral signal. -/
def determine_signal (k_value d_value overbought oversold : ℚ) : String :=
  if k_value ≥ overbought ∧ d_value ≥ overbought then "OVERBOUGHT"
  else if k_value ≤ oversold ∧ d_value ≤ oversold then "OVERSOLD"
  else "NEUTRAL"

/-- Embeds `SignalDetector.classify_signal` from `src/signal_detector.py`:
`None` inputs are neutral, otherwise either line strictly beyond the
hard-coded 80/20 levels fires the signal. -/
def classify_signal (k_value d_value : Option ℚ) : String :=
  match k_value, d_value with
  | some kv, some dv =>
      if kv > 80 ∨ dv > 80 then "OVERBOUGHT"
      else if kv < 20 ∨ dv < 20 then "OVERSOLD"
      else "NEUTRAL"
  | _, _ => "NEUTRAL"

/-- Payload of a detected, zone-qualified crossover (the logging-only dict
fields are dropped). -/
structure CrossInfo where
  cross_type : String
  k_at_cross : PF
deriving DecidableEq, Repr

/-- Embeds `detect_cross_detailed` from `SMIDebug` / `SMIStandalone` (the two
bodies are character-identical): undefined operands are skipped, the cross
point is the midpoint `(k_prev + k_curr)/2`, and only a bullish cross in
the oversold zone or a bearish cross in the overbought zone yields an
event. -/
def detect_cross_detailed (overbought oversold : ℚ)
    (k_prev d_prev k_curr d_curr : PF) : Option CrossInfo :=
  if k_prev.isnan ∨ d_prev.isnan ∨ k_curr.isnan ∨ d_curr.isnan then none
  else
    let bullish_cross := PF.le k_prev d_prev && PF.lt d_curr k_curr
    let bearish_cross := PF.le d_prev k_prev && PF.lt k_curr d_curr
    if ¬ bullish_cross ∧ ¬ bearish_cross then none
    else
      let k_at_cross := PF.div (PF.add k_prev k_curr) (.num 2)
      let in_oversold := PF.le k_at_cross (.num oversold)
      let in_overbought := PF.le (.num overbought) k_at_cross
      if bullish_cross ∧ in_oversold then some ⟨"OVERSOLD", k_at_cross⟩
      else if bearish_cross ∧ in_overbought then some ⟨"OVERBOUGHT", k_at_cross⟩
      else none

/-- Embeds `TestSMI.detect_cross_in_candle`: same detection logic, phrased as a
`cross_type` selection that falls through to `None` when the midpoint is in
neither extreme zone. -/
def detect_cross_in_candle (overbought oversold : ℚ)
    (k_prev d_prev k_curr d_curr : PF) : Option CrossInfo :=
  if k_prev.isnan ∨ d_prev.isnan ∨ k_curr.isnan ∨ d_curr.isnan then none
  else
    let bullish_cross := PF.le k_prev d_prev && PF.lt d_curr k_curr
    let bearish_cross := PF.le d_prev k_prev && PF.lt k_curr d_curr
    if ¬ bullish_cross ∧ ¬ bearish_cross then none
    else
      let k_at_cross := PF.div (PF.add k_prev k_curr) (.num 2)
      let in_oversold := PF.le k_at_cross (.num oversold)
      let in_overbought := PF.le (.num overbought) k_at_cross
      let cross_type : Option String :=
        if bullish_cross ∧ in_oversold then some "OVERSOLD"
        else if bearish_cross ∧ in_overbought then some "OVERBOUGHT"
        else none
      match cross_type with
      | none => none
      | some t => some ⟨t, k_at_cross⟩

/-- Cache key of `AlertManager`: the components of the f-string
`f"{symbol}_{timeframe}_{signal_type}"` (distinct for the underscore-free
symbols, timeframes and signal names the system uses). -/
structure AlertKey where
  symbol : String
  timeframe : String
  signal_type : String
deriving DecidableEq, Repr

/-- The `AlertManager` cache: key to ISO timestamp, with time modelled as
rational minutes. -/
abbrev AlertCache := List (AlertKey × ℚ)

/-- Embeds `config.COOLDOWN_PERIODS`, in minutes. -/
def COOLDOWN_PERIODS : List (String × ℚ) :=
  [("15m", 15), ("1h", 60), ("4h", 240), ("1d", 1440)]

/-- Embeds `config.COOLDOWN_PERIODS.get(timeframe, 15)`. -/
def cooldownMinutes (timeframe : String) : ℚ :=
  (lookupKey COOLDOWN_PERIODS timeframe).getD 15

/-- Embeds `AlertManager.can_send_alert`: true when the key is unknown, otherwise
true exactly when `now - last_alert_time >= cooldown_delta`. -/
def can_send_alert (cache : AlertCache) (symbol timeframe signal_type : String)
    (now : ℚ) : Bool :=
  match lookupKey cache ⟨symbol, timeframe, signal_type⟩ with
  | none => true
  | some last_alert_time => now - last_alert_time ≥ cooldownMinutes timeframe

/-- Embeds `AlertManager.record_alert`: stamp the key with the current time. -/
def record_alert (cache : AlertCache) (symbol timeframe signal_type : String)
    (now : ℚ) : AlertCache :=
  insertKey cache ⟨symbol, timeframe, signal_type⟩ now

/-- The opposite signal as computed by `clear_opposite_signal`:
`OVERSOLD if signal_type == OVERBOUGHT else OVERBOUGHT`. -/
def oppositeSignal (signal_type : String) : String :=
  if signal_type = "OVERBOUGHT" then "OVERSOLD" else "OVERBOUGHT"

/-- Embeds `AlertManager.clear_opposite_signal`: delete the cache entry for the
opposite signal on the same symbol/timeframe when present. -/
def clear_opposite_signal (cache : AlertCache)
    (symbol timeframe signal_type : String) : AlertCache :=
  let opposite_key : AlertKey := ⟨symbol, timeframe, oppositeSignal signal_type⟩
  if (lookupKey cache opposite_key).isSome then eraseKey cache opposite_key
  else cache

/-- Embeds `AlertManager.load_cache`: `none` models the file being absent,
`some (.error e)` a `json.load` that raised, `some (.ok c)` a successful
parse.  Every branch returns a cache; no exception escapes. -/
def load_cache (readResult : Option (Except String AlertCache)) : AlertCache :=
  match readResult with
  | none => []
  | some (.ok cache) => cache
  | some (.error _) => []

/-- Cooldown key of `SignalDetector`: `(symbol, signal_type)`. -/
abbrev DetKey := String × String

/-- The `SignalDetector` cooldown map (ISO timestamps as rational
minutes). -/
abbrev DetState := List (DetKey × ℚ)

/-- Embeds `SignalDetector._load_cooldowns`: the bare `except` around `json.load`
resets an unparseable store to the empty map; a missing file also yields
the empty map. -/
def load_cooldowns (readResult : Option (Except String DetState)) : DetState :=
  match readResult with
  | none => []
  | some (.ok cooldowns) => cooldowns
  | some (.error _) => []

/-- Embeds `SignalDetector.check_cooldown` with `cooldown_hours` converted to
minutes: in cooldown (false) exactly when a record exists and
`now < last_alert_time + cooldown`. -/
def sd_check_cooldown (cooldown_hours : ℚ) (cooldowns : DetState)
    (symbol signal_type : String) (now : ℚ) : Bool :=
  match lookupKey cooldowns (symbol, signal_type) with
  | some last_alert_time =>
      if now < last_alert_time + cooldown_hours * 60 then false else true
  | none => true

/-- Embeds `SignalDetector.update_cooldown`: stamp the key with the current
time. -/
def sd_update_cooldown (cooldowns : DetState) (symbol signal_type : String)
    (now : ℚ) : DetState :=
  insertKey cooldowns (symbol, signal_type) now

/-- Embeds `SignalDetector.should_send_alert`: neutral base signals never alert,
otherwise the cooldown decides. -/
def should_send_alert (cooldown_hours : ℚ) (cooldowns : DetState)
    (symbol base_tf_signal : String) (now : ℚ) : Bool :=
  if base_tf_signal = "NEUTRAL" then false
  else sd_check_cooldown cooldown_hours cooldowns symbol base_tf_signal now

/-- Cooldown key of `SMIStandalone`: the components of
`f"{symbol}_15M_{signal_type}_{ts_str}"`, with the minute-truncated candle
timestamp kept as the formatted string. -/
structure SmiKey where
  symbol : String
  signal_type : String
  ts_str : String
deriving DecidableEq, Repr

/-- The `SMIStandalone` state: each record keeps only the field the code
reads back, `last_alert_time` (rational minutes). -/
abbrev SmiState := List (SmiKey × ℚ)

/-- Embeds `SMIStandalone.freshness_minutes`. -/
def freshness_minutes : ℚ := 90

/-- Embeds `SMIStandalone.check_cooldown`: reject when the exact
`(symbol, signal_type, candle_timestamp)` key was already alerted, else
reject when any entry with the same symbol and signal type is younger than
the freshness window, else allow. -/
def smi_check_cooldown (state : SmiState) (symbol signal_type ts_str : String)
    (now : ℚ) : Bool :=
  if (lookupKey state ⟨symbol, signal_type, ts_str⟩).isSome then false
  else if state.any
      (fun e => e.1.symbol = symbol ∧ e.1.signal_type = signal_type ∧
        now - e.2 < freshness_minutes) then false
  else true

/-- Embeds `timedelta.days` of `now - last`, with both times in minutes: the
floor of the elapsed whole days. -/
def daysBetween (now last : ℚ) : ℤ := ⌊(now - last) / 1440⌋

/-- Embeds `SMIStandalone.update_cooldown`: store the key with
`last_alert_time = now`, then drop every entry older than 7 days. -/
def smi_update_cooldown (state : SmiState) (symbol signal_type ts_str : String)
    (now : ℚ) : SmiState :=
  (insertKey state ⟨symbol, signal_type, ts_str⟩ now).filter
    (fun e => ¬ (daysBetween now e.2 > 7))

/-- The alert branch of `analyze_symbol` in `main.py` (lines 344-354):
for a non-neutral primary signal that clears the cooldown, delivery is
attempted and the cache is written only when `send_telegram_alert`
reported success (`record_alert` then `clear_opposite_signal`). -/
def analyze_alert_step (cache : AlertCache) (symbol timeframe signal_type : String)
    (now : ℚ) (delivery_success : Bool) : AlertCache :=
  if signal_type = "OVERBOUGHT" ∨ signal_type = "OVERSOLD" then
    if can_send_alert cache symbol timeframe signal_type now then
      if delivery_success then
        clear_opposite_signal (record_alert cache symbol timeframe signal_type now)
          symbol timeframe signal_type
      else cache
    else cache
  else cache

/-- One per-coin result as consumed by `send_consolidated_alert`: the base
symbol and the 15m classification. -/
structure CoinResult where
  base_symbol : String
  signal15m : String
deriving DecidableEq, Repr

/-- Embeds `send_consolidated_alert` from `src/main.py`: every qualifying result
has its cooldown stamped by `update_cooldown` while the alert list is being
collected, and only afterwards is a single delivery attempted.  The
notifier argument is `none` when credentials are missing and `some d`
when present with delivery outcome `d`; `message_ok` models the
truthiness of `format_bulk_message`.  Returns the detector state and the
number of signals reported as sent. -/
def send_consolidated_alert (cooldown_hours : ℚ) (results : List CoinResult)
    (cooldowns : DetState) (now : ℚ) (notifier : Option Bool)
    (message_ok : Bool) : DetState × ℕ :=
  let step := fun (acc : DetState × List CoinResult) (r : CoinResult) =>
    if should_send_alert cooldown_hours acc.1 r.base_symbol r.signal15m now then
      (sd_update_cooldown acc.1 r.base_symbol r.signal15m now, acc.2 ++ [r])
    else acc
  let collected := results.foldl step (cooldowns, [])
  match notifier with
  | some delivered =>
      if collected.2 ≠ [] then
        if message_ok ∧ delivered then (collected.1, collected.2.length)
        else (collected.1, 0)
      else (collected.1, 0)
  | none => (collected.1, 0)

theorem lookupKey_insertKey_self {κ β : Type} [DecidableEq κ]
    (st : List (κ × β)) (k : κ) (v : β) :
    lookupKey (insertKey st k v) k = some v := by
  simp [insertKey, lookupKey]

theorem lookupKey_eraseKey_self {κ β : Type} [DecidableEq κ]
    (st : List (κ × β)) (k : κ) :
    lookupKey (eraseKey st k) k = none := by
  induction st with
  | nil => rfl
  | cons e rest ih =>
      by_cases h : e.1 = k
      · simpa [eraseKey, List.filter_cons, h] using ih
      · simpa [eraseKey, List.filter_cons, h, lookupKey, Ne.symm h] using ih

theorem lookupKey_eraseKey_ne {κ β : Type} [DecidableEq κ]
    (st : List (κ × β)) (k k' : κ) (h : k' ≠ k) :
    lookupKey (eraseKey st k) k' = lookupKey st k' := by
  induction st with
  | nil => rfl
  | cons e rest ih =>
      by_cases he : e.1 = k
      · simp [eraseKey, List.filter_cons, he, lookupKey, h] at *
        exact ih
      · by_cases hk : k' = e.1
        · simp [eraseKey, List.filter_cons, he, lookupKey, hk]
        · simpa [eraseKey, List.filter_cons, he, lookupKey, hk] using ih

theorem lookupKey_insertKey_ne {κ β : Type} [DecidableEq κ]
    (st : List (κ × β)) (k k' : κ) (v : β) (h : k' ≠ k) :
    lookupKey (insertKey st k v) k' = lookupKey st k' := by
  simp [insertKey, lookupKey, h]
  exact lookupKey_eraseKey_ne st k k' h

/-- C2: after `record_alert` stamps `(symbol, timeframe, signal_type)` at
time `T`, `can_send_alert` is false for every query time in
`[T, T + cooldown(timeframe))`, true at exactly `T + cooldown(timeframe)`
(boundary inclusive) and at every later time, and a key with no record
always passes. -/
theorem can_send_alert_cooldown_window (cache : AlertCache)
    (symbol timeframe signal_type : String) (T t : ℚ) :
    (T ≤ t → t < T + cooldownMinutes timeframe →
      can_send_alert (record_alert cache symbol timeframe signal_type T)
        symbol timeframe signal_type t = false)
    ∧ can_send_alert (record_alert cache symbol timeframe signal_type T)
        symbol timeframe signal_type (T + cooldownMinutes timeframe) = true
    ∧ (T + cooldownMinutes timeframe ≤ t →
      can_send_alert (record_alert cache symbol timeframe signal_type T)
        symbol timeframe signal_type t = true)
    ∧ (lookupKey cache ⟨symbol, timeframe, signal_type⟩ = none →
      can_send_alert cache symbol timeframe signal_type t = true) := by
  refine ⟨?_, ?_, ?_, ?_⟩
  · intro _ h2
    simp only [can_send_alert, record_alert, lookupKey_insertKey_self,
      decide_eq_false_iff_not, not_le]
    linarith
  · simp only [can_send_alert, record_alert, lookupKey_insertKey_self,
      decide_eq_true_eq]
    linarith
  · intro h
    simp only [can_send_alert, record_alert, lookupKey_insertKey_self,
      decide_eq_true_eq]
    linarith
  · intro h
    simp [can_send_alert, h]

/-- Witness for C2: the spec scenario — `record("BTC/USDT","15m","OVERBOUGHT")`
at `t = 0`; querying at 10 minutes is refused, at 15 minutes allowed. -/
theorem can_send_alert_cooldown_window_witness :
    can_send_alert (record_alert [] "BTC/USDT" "15m" "OVERBOUGHT" 0)
      "BTC/USDT" "15m" "OVERBOUGHT" 10 = false
    ∧ can_send_alert (record_alert [] "BTC/USDT" "15m" "OVERBOUGHT" 0)
      "BTC/USDT" "15m" "OVERBOUGHT" 15 = true := by
  constructor
  · exact (can_send_alert_cooldown_window [] "BTC/USDT" "15m" "OVERBOUGHT" 0 10).1
      (by norm_num) (by norm_num [cooldownMinutes, COOLDOWN_PERIODS, lookupKey])
  · exact (can_send_alert_cooldown_window [] "BTC/USDT" "15m" "OVERBOUGHT" 0 15).2.2.1
      (by norm_num [cooldownMinutes, COOLDOWN_PERIODS, lookupKey])

/-- C10: `clear_opposite_signal` removes at most one entry — the key of the
opposite signal type on the same symbol and timeframe — and leaves every
other entry, including the entry of the given signal type itself, unchanged. -/
theorem clear_opposite_signal_frame (cache : AlertCache)
    (symbol timeframe signal_type : String)
    (hsig : signal_type = "OVERBOUGHT" ∨ signal_type = "OVERSOLD") :
    (∀ k : AlertKey, k ≠ ⟨symbol, timeframe, oppositeSignal signal_type⟩ →
      lookupKey (clear_opposite_signal cache symbol timeframe signal_type) k =
        lookupKey cache k)
    ∧ lookupKey (clear_opposite_signal cache symbol timeframe signal_type)
        ⟨symbol, timeframe, oppositeSignal signal_type⟩ = none
    ∧ lookupKey (clear_opposite_signal cache symbol timeframe signal_type)
        ⟨symbol, timeframe, signal_type⟩ =
        lookupKey cache ⟨symbol, timeframe, signal_type⟩ := by
  have hne : (⟨symbol, timeframe, signal_type⟩ : AlertKey) ≠
      ⟨symbol, timeframe, oppositeSignal signal_type⟩ := by
    rcases hsig with h | h <;> simp [h, oppositeSignal]
  refine ⟨?_, ?_, ?_⟩
  · intro k hk
    simp only [clear_opposite_signal]
    split
    · exact lookupKey_eraseKey_ne cache _ k hk
    · rfl
  · simp only [clear_opposite_signal]
    split
    · exact lookupKey_eraseKey_self cache _
    · rename_i h
      exact Option.eq_none_iff_forall_not_mem.mpr
        (by simpa [Option.isSome_iff_exists] using h)
  · simp only [clear_opposite_signal]
    split
    · exact lookupKey_eraseKey_ne cache _ _ hne
    · rfl

/-- Witness for C10: clearing the opposite of OVERBOUGHT on BTC/USDT 15m
deletes exactly the OVERSOLD record while the record of another symbol
survives. -/
theorem clear_opposite_signal_frame_witness :
    lookupKey (clear_opposite_signal
        ([(⟨"BTC/USDT", "15m", "OVERSOLD"⟩, 5), (⟨"ETH/USDT", "15m", "OVERSOLD"⟩, 7)] :
          AlertCache)
        "BTC/USDT" "15m" "OVERBOUGHT") ⟨"BTC/USDT", "15m", "OVERSOLD"⟩ = none
    ∧ lookupKey (clear_opposite_signal
        ([(⟨"BTC/USDT", "15m", "OVERSOLD"⟩, 5), (⟨"ETH/USDT", "15m", "OVERSOLD"⟩, 7)] :
          AlertCache)
        "BTC/USDT" "15m" "OVERBOUGHT") ⟨"ETH/USDT", "15m", "OVERSOLD"⟩ =
      lookupKey ([(⟨"BTC/USDT", "15m", "OVERSOLD"⟩, 5), (⟨"ETH/USDT", "15m", "OVERSOLD"⟩, 7)] :
          AlertCache)
        ⟨"ETH/USDT", "15m", "OVERSOLD"⟩ := by
  constructor
  · exact (clear_opposite_signal_frame
      ([(⟨"BTC/USDT", "15m", "OVERSOLD"⟩, 5), (⟨"ETH/USDT", "15m", "OVERSOLD"⟩, 7)] :
        AlertCache)
      "BTC/USDT" "15m" "OVERBOUGHT" (Or.inl rfl)).2.1
  · exact (clear_opposite_signal_frame
      ([(⟨"BTC/USDT", "15m", "OVERSOLD"⟩, 5), (⟨"ETH/USDT", "15m", "OVERSOLD"⟩, 7)] :
        AlertCache)
      "BTC/USDT" "15m" "OVERBOUGHT" (Or.inl rfl)).1 _ (by decide)

/-- C9: loading the persisted ledger from a store whose contents raised
during parsing yields the empty ledger in both `AlertManager.load_cache`
and `SignalDetector._load_cooldowns`; a missing file does too, and no
branch escapes with an exception. -/
theorem corrupt_store_loads_empty (e : String) :
    load_cache (some (.error e)) = [] ∧ load_cooldowns (some (.error e)) = []
    ∧ load_cache none = [] ∧ load_cooldowns none = [] :=
  ⟨rfl, rfl, rfl, rfl⟩

/-- C3: once `update_cooldown` has recorded the exact
`(symbol, signal_type, candle_timestamp)` key, `check_cooldown` on the
identical key answers false at every later query time — the exact-candle
branch ignores elapsed time entirely, so even a query far outside the
90-minute freshness window is rejected. -/
theorem candle_dedup_exact (state : SmiState)
    (symbol signal_type ts_str : String) (t_update t_check : ℚ) :
    smi_check_cooldown
      (smi_update_cooldown state symbol signal_type ts_str t_update)
      symbol signal_type ts_str t_check = false := by
  have hdays : daysBetween t_update t_update = 0 := by
    simp [daysBetween]
  unfold smi_update_cooldown smi_check_cooldown insertKey
  simp [List.filter_cons, hdays, lookupKey]

/-- C1 (failing input): in `send_consolidated_alert` the cooldown ledger is
stamped while qualifying alerts are being collected, before any delivery
attempt — so with a single OVERBOUGHT result and a notifier whose delivery
fails, the ledger gains the `("BTC", "OVERBOUGHT")` entry although zero
signals were delivered.  The alert branch of `analyze_symbol` in `main.py`,
by contrast, leaves the cache untouched on failed delivery. -/
theorem ledger_written_before_delivery :
    send_consolidated_alert 4 [⟨"BTC", "OVERBOUGHT"⟩] [] 0 (some false) true
      = ([(("BTC", "OVERBOUGHT"), 0)], 0)
    ∧ analyze_alert_step [] "BTC/USDT" "15m" "OVERBOUGHT" 0 false = [] := by
  constructor
  · decide
  · decide

/-- C4 (counterexample): `SignalDetector.classify_signal` returns
OVERBOUGHT at `%K = 85, %D = 50`, where only the `%K` line is beyond the
threshold — the claim demands NEUTRAL whenever only one line is beyond. -/
theorem classify_signal_single_line_counterexample :
    classify_signal (some 85) (some 50) = "OVERBOUGHT"
    ∧ (85 : ℚ) > 80 ∧ ¬ ((50 : ℚ) > 80)
    ∧ ("OVERBOUGHT" : String) ≠ "NEUTRAL" := by
  refine ⟨by decide, by norm_num, by norm_num, by decide⟩

/-- C4 (amended): `determine_signal` (main.py / stoch_rsi.py) fires exactly
when both lines are beyond the inclusive threshold and is NEUTRAL whenever
only one is; `classify_signal` (src/signal_detector.py) instead fires
whenever either line is strictly beyond its hard-coded 80/20 level. -/
theorem threshold_classifiers_characterization :
    (∀ k d overbought oversold : ℚ,
      (determine_signal k d overbought oversold = "OVERBOUGHT" ↔
        k ≥ overbought ∧ d ≥ overbought)
      ∧ (determine_signal k d overbought oversold = "OVERSOLD" ↔
        ¬(k ≥ overbought ∧ d ≥ overbought) ∧ k ≤ oversold ∧ d ≤ oversold)
      ∧ (determine_signal k d overbought oversold = "NEUTRAL" ↔
        ¬(k ≥ overbought ∧ d ≥ overbought) ∧ ¬(k ≤ oversold ∧ d ≤ oversold)))
    ∧ (∀ k d : ℚ,
      (classify_signal (some k) (some d) = "OVERBOUGHT" ↔ k > 80 ∨ d > 80)
      ∧ (classify_signal (some k) (some d) = "OVERSOLD" ↔
        ¬(k > 80 ∨ d > 80) ∧ (k < 20 ∨ d < 20))
      ∧ (classify_signal (some k) (some d) = "NEUTRAL" ↔
        ¬(k > 80 ∨ d > 80) ∧ ¬(k < 20 ∨ d < 20)))
    ∧ (∀ d : Option ℚ, classify_signal none d = "NEUTRAL") := by
  refine ⟨?_, ?_, ?_⟩
  · intro k d overbought oversold
    refine ⟨?_, ?_, ?_⟩ <;>
      · unfold determine_signal
        split_ifs <;> simp_all
  · intro k d
    refine ⟨?_, ?_, ?_⟩ <;>
      · show (if k > 80 ∨ d > 80 then "OVERBOUGHT"
            else if k < 20 ∨ d < 20 then "OVERSOLD" else "NEUTRAL") = _ ↔ _
        split_ifs <;> simp_all
  · intro d
    rfl

/-- C8: when all four operands are defined and a bullish or bearish
crossover is detected, a midpoint strictly between the oversold and
overbought thresholds yields no event from either crossover detector. -/
theorem cross_midpoint_neutral_zone_discarded
    (overbought oversold k_prev d_prev k_curr d_curr : ℚ)
    (_hcross : (k_prev ≤ d_prev ∧ d_curr < k_curr) ∨
      (d_prev ≤ k_prev ∧ k_curr < d_curr))
    (h_lo : oversold < (k_prev + k_curr) / 2)
    (h_hi : (k_prev + k_curr) / 2 < overbought) :
    detect_cross_detailed overbought oversold
      (.num k_prev) (.num d_prev) (.num k_curr) (.num d_curr) = none
    ∧ detect_cross_in_candle overbought oversold
      (.num k_prev) (.num d_prev) (.num k_curr) (.num d_curr) = none := by
  have hmid : PF.div (PF.add (.num k_prev) (.num k_curr)) (.num 2) =
      .num ((k_prev + k_curr) / 2) := by
    simp [PF.add, PF.div]
  have h_os : PF.le (.num ((k_prev + k_curr) / 2)) (.num oversold) = false := by
    simp [PF.le]
    linarith
  have h_ob : PF.le (.num overbought) (.num ((k_prev + k_curr) / 2)) = false := by
    simp [PF.le]
    linarith
  constructor
  · simp only [detect_cross_detailed, PF.isnan, hmid, h_os, h_ob]
    split_ifs <;> simp_all
  · simp only [detect_cross_in_candle, PF.isnan, hmid, h_os, h_ob]
    split_ifs <;> simp_all

/-- Witness for C8: a bullish crossover from -10 to 10 across a flat %D at
0 has midpoint 0, strictly inside the ±40 neutral band, and is
discarded. -/
theorem cross_midpoint_neutral_zone_discarded_witness :
    ((-10 : ℚ) ≤ 0 ∧ (0 : ℚ) < 10) ∧
    detect_cross_detailed 40 (-40) (.num (-10)) (.num 0) (.num 10) (.num 0) = none
    ∧ detect_cross_in_candle 40 (-40) (.num (-10)) (.num 0) (.num 10) (.num 0) = none :=
  ⟨⟨by norm_num, by norm_num⟩,
    cross_midpoint_neutral_zone_discarded 40 (-40) (-10) 0 10 0
      (Or.inl ⟨by norm_num, by norm_num⟩) (by norm_num) (by norm_num)⟩

theorem getD_range_map {β : Type} (n : ℕ) (f : ℕ → β) (d : β) (i : ℕ)
    (h : i < n) : ((List.range n).map f).getD i d = f i := by
  rw [List.getD_eq_getElem?_getD]
  simp [List.getElem?_map, List.getElem?_range, h]

theorem getD_range_map_ge {β : Type} (n : ℕ) (f : ℕ → β) (d : β) (i : ℕ)
    (h : n ≤ i) : ((List.range n).map f).getD i d = d := by
  rw [List.getD_eq_getElem?_getD]
  simp [List.getElem?_map, List.getElem?_eq_none_iff.mpr, h]

/-- C5 (counterexample): twelve flat candles (`high = low = close = 5`,
default `length_k = 10`, `length_d = 3`) drive the double-EMA denominator
to exactly `0` at index 11 — within any epsilon band, including exactly
zero — yet `SMIStandalone.calculate_smi` (same code in `SMIDebug`) reports
`%K = 0.0` there, a fabricated finite value instead of an undefined one. -/
theorem smi_zero_denominator_counterexample :
    (smiDenominator 10 3 (List.replicate 12 5) (List.replicate 12 5)).getD 11 .nan
      = PF.num 0
    ∧ (smiK_standalone 10 3 (List.replicate 12 5) (List.replicate 12 5)
        (List.replicate 12 5)).getD 11 .nan = PF.num 0
    ∧ PF.num 0 ≠ PF.nan := by
  refine ⟨?_, ?_, by decide⟩ <;>
    norm_num [smiK_standalone, smiDenominator, smiNumerator, smiRange, smiRelative,
      emaEma, emaSpan, ewmPF, ewmPFGo, rollingMax, rollingMin, windowAt,
      List.range_succ, List.replicate, npNeZero,
      PF.sub, PF.add, PF.neg, PF.div, PF.mul, pfMax, pfMin]

/-- C5 (amended): in `SMIStandalone`/`SMIDebug` the `%K` policy is the
numpy zero-fill — `%K = 0` wherever the denominator is exactly `0`, and
`%K = 200 * numerator/denominator` wherever the denominator is any nonzero
number, however small (no epsilon tolerance); only `TestSMI.calculate_smi`
implements the rule of the claim, with `%K` undefined wherever the denominator
is undefined or `|denominator| <= 1e-10` and `%K = 200 * num/den`
otherwise. -/
theorem smi_denominator_policy (length_k length_d : ℕ)
    (high low close : List ℚ) (i : ℕ) (hi : i < close.length) :
    ((smiDenominator length_k length_d high low).getD i .nan = PF.num 0 →
      (smiK_standalone length_k length_d high low close).getD i .nan = PF.num 0)
    ∧ (∀ q : ℚ, q ≠ 0 →
      (smiDenominator length_k length_d high low).getD i .nan = PF.num q →
      (smiK_standalone length_k length_d high low close).getD i .nan =
        PF.mul (.num 200)
          (PF.div ((smiNumerator length_k length_d high low close).getD i .nan)
            (.num q)))
    ∧ ((smiDenominator length_k length_d high low).getD i .nan = PF.nan →
      (smiK_test length_k length_d high low close).getD i .nan = PF.nan)
    ∧ (∀ q : ℚ, |q| ≤ 1 / 10 ^ 10 →
      (smiDenominator length_k length_d high low).getD i .nan = PF.num q →
      (smiK_test length_k length_d high low close).getD i .nan = PF.nan)
    ∧ (∀ q : ℚ, |q| > 1 / 10 ^ 10 →
      (smiDenominator length_k length_d high low).getD i .nan = PF.num q →
      (smiK_test length_k length_d high low close).getD i .nan =
        PF.mul (.num 200)
          (PF.div ((smiNumerator length_k length_d high low close).getD i .nan)
            (.num q))) := by
  refine ⟨?_, ?_, ?_, ?_, ?_⟩
  · intro hden
    rw [smiK_standalone, getD_range_map _ _ _ _ hi, hden]
    simp [npNeZero]
  · intro q hq hden
    rw [smiK_standalone, getD_range_map _ _ _ _ hi, hden]
    simp [npNeZero, hq]
  · intro hden
    rw [smiK_test, getD_range_map _ _ _ _ hi, hden]
    simp [npValidEps]
  · intro q hq hden
    have hb : npValidEps (PF.num q) = false := by
      simp only [npValidEps, decide_eq_false_iff_not, not_lt]
      simpa using hq
    rw [smiK_test, getD_range_map _ _ _ _ hi, hden]
    simp [hb]
  · intro q hq hden
    have hb : npValidEps (PF.num q) = true := by
      simp only [npValidEps, decide_eq_true_eq]
      simpa using hq
    rw [smiK_test, getD_range_map _ _ _ _ hi, hden]
    simp [hb]

/-- Witness for C5: the flat 12-candle input exercises the zero-fill branch
of `smiK_standalone` at index 11, and a one-candle input with range 2
exercises the valid branch of `smiK_test`. -/
theorem smi_denominator_policy_witness :
    (smiK_standalone 10 3 (List.replicate 12 5) (List.replicate 12 5)
        (List.replicate 12 5)).getD 11 .nan = PF.num 0
    ∧ (smiK_test 1 1 [3] [1] [2]).getD 0 .nan =
      PF.mul (.num 200) (PF.div ((smiNumerator 1 1 [3] [1] [2]).getD 0 .nan) (.num 2)) := by
  constructor
  · exact (smi_denominator_policy 10 3 (List.replicate 12 5) (List.replicate 12 5)
      (List.replicate 12 5) 11 (by norm_num)).1
      (by norm_num [smiDenominator, smiNumerator, smiRange, smiRelative,
        emaEma, emaSpan, ewmPF, ewmPFGo, rollingMax, rollingMin, windowAt,
        List.range_succ, List.replicate,
        PF.sub, PF.add, PF.neg, PF.div, PF.mul, pfMax, pfMin])
  · exact (smi_denominator_policy 1 1 [3] [1] [2] 0 (by norm_num)).2.2.2.2 2
      (by norm_num)
      (by norm_num [smiDenominator, smiNumerator, smiRange, smiRelative,
        emaEma, emaSpan, ewmPF, ewmPFGo, rollingMax, rollingMin, windowAt,
        List.range_succ, List.replicate,
        PF.sub, PF.add, PF.neg, PF.div, PF.mul, pfMax, pfMin])

theorem pfMax_num_inv (y r : PF) (q : ℚ) (h : pfMax y r = PF.num q) :
    (y = PF.ninf ∨ ∃ a, y = PF.num a ∧ a ≤ q) ∧
    (r = PF.ninf ∨ ∃ b, r = PF.num b ∧ b ≤ q) := by
  cases y <;> cases r <;> simp [pfMax] at h
  case num.num a b =>
    exact ⟨Or.inr ⟨a, rfl, h ▸ le_max_left a b⟩, Or.inr ⟨b, rfl, h ▸ le_max_right a b⟩⟩
  case num.ninf a =>
    exact ⟨Or.inr ⟨a, rfl, le_of_eq h⟩, Or.inl rfl⟩
  case ninf.num b =>
    exact ⟨Or.inl rfl, Or.inr ⟨b, rfl, le_of_eq h⟩⟩

theorem pfMin_num_inv (y r : PF) (q : ℚ) (h : pfMin y r = PF.num q) :
    (y = PF.inf ∨ ∃ a, y = PF.num a ∧ q ≤ a) ∧
    (r = PF.inf ∨ ∃ b, r = PF.num b ∧ q ≤ b) := by
  cases y <;> cases r <;> simp [pfMin] at h
  case num.num a b =>
    exact ⟨Or.inr ⟨a, rfl, h ▸ min_le_left a b⟩, Or.inr ⟨b, rfl, h ▸ min_le_right a b⟩⟩
  case num.inf a =>
    exact ⟨Or.inr ⟨a, rfl, ge_of_eq h⟩, Or.inl rfl⟩
  case inf.num b =>
    exact ⟨Or.inl rfl, Or.inr ⟨b, rfl, ge_of_eq h⟩⟩

theorem foldr_pfMax_ninf_inv (w : List PF) (h : w.foldr pfMax PF.ninf = PF.ninf) :
    ∀ x ∈ w, x = PF.ninf := by
  induction w with
  | nil => simp
  | cons y rest ih =>
      rw [List.foldr_cons] at h
      have hinv : y = PF.ninf ∧ rest.foldr pfMax PF.ninf = PF.ninf := by
        cases y <;> cases hrr : rest.foldr pfMax PF.ninf <;>
          rw [hrr] at h <;> simp_all [pfMax]
      intro x hx
      rcases List.mem_cons.mp hx with rfl | hx
      · exact hinv.1
      · exact ih hinv.2 x hx

theorem foldr_pfMin_inf_inv (w : List PF) (h : w.foldr pfMin PF.inf = PF.inf) :
    ∀ x ∈ w, x = PF.inf := by
  induction w with
  | nil => simp
  | cons y rest ih =>
      rw [List.foldr_cons] at h
      have hinv : y = PF.inf ∧ rest.foldr pfMin PF.inf = PF.inf := by
        cases y <;> cases hrr : rest.foldr pfMin PF.inf <;>
          rw [hrr] at h <;> simp_all [pfMin]
      intro x hx
      rcases List.mem_cons.mp hx with rfl | hx
      · exact hinv.1
      · exact ih hinv.2 x hx

theorem foldr_pfMax_num_inv (w : List PF) :
    ∀ q : ℚ, w.foldr pfMax PF.ninf = PF.num q →
      ∀ x ∈ w, x = PF.ninf ∨ ∃ a, x = PF.num a ∧ a ≤ q := by
  induction w with
  | nil => intro q h; simp [List.foldr] at h
  | cons y rest ih =>
      intro q h x hx
      rw [List.foldr_cons] at h
      obtain ⟨hy, hr⟩ := pfMax_num_inv y _ q h
      rcases List.mem_cons.mp hx with rfl | hx
      · exact hy
      · rcases hr with hr | ⟨b, hb, hbq⟩
        · exact Or.inl (foldr_pfMax_ninf_inv rest hr x hx)
        · rcases ih b hb x hx with h1 | ⟨c, hc, hcb⟩
          · exact Or.inl h1
          · exact Or.inr ⟨c, hc, le_trans hcb hbq⟩

theorem foldr_pfMin_num_inv (w : List PF) :
    ∀ q : ℚ, w.foldr pfMin PF.inf = PF.num q →
      ∀ x ∈ w, x = PF.inf ∨ ∃ a, x = PF.num a ∧ q ≤ a := by
  induction w with
  | nil => intro q h; simp [List.foldr] at h
  | cons y rest ih =>
      intro q h x hx
      rw [List.foldr_cons] at h
      obtain ⟨hy, hr⟩ := pfMin_num_inv y _ q h
      rcases List.mem_cons.mp hx with rfl | hx
      · exact hy
      · rcases hr with hr | ⟨b, hb, hbq⟩
        · exact Or.inl (foldr_pfMin_inf_inv rest hr x hx)
        · rcases ih b hb x hx with h1 | ⟨c, hc, hcb⟩
          · exact Or.inl h1
          · exact Or.inr ⟨c, hc, le_trans hbq hcb⟩

theorem window_all_eq (w : List PF) (q : ℚ)
    (hmax : w.foldr pfMax PF.ninf = PF.num q)
    (hmin : w.foldr pfMin PF.inf = PF.num q) :
    ∀ x ∈ w, x = PF.num q := by
  intro x hx
  rcases foldr_pfMax_num_inv w q hmax x hx with h1 | ⟨a, ha, haq⟩
  · rcases foldr_pfMin_num_inv w q hmin x hx with h2 | ⟨b, hb, _⟩
    · rw [h1] at h2; exact absurd h2 (by simp)
    · rw [h1] at hb; exact absurd hb (by simp)
  · rcases foldr_pfMin_num_inv w q hmin x hx with h2 | ⟨b, hb, hbq⟩
    · rw [ha] at h2; exact absurd h2 (by simp)
    · rw [ha] at hb
      have hab : a = b := by simpa using hb
      rw [ha]
      exact congrArg PF.num (le_antisymm haq (hab ▸ hbq))

theorem getD_mem_windowAt (len : ℕ) (xs : List PF) (i : ℕ)
    (hi : i < xs.length) (hlen : 0 < len) :
    xs.getD i PF.nan ∈ windowAt len xs i := by
  have ht : (xs.take (i + 1)).length = i + 1 := by
    rw [List.length_take]; omega
  have hw : (windowAt len xs i).length = (i + 1) - (i + 1 - len) := by
    simp only [windowAt, List.length_drop, ht]
  have hjlt : i - (i + 1 - len) < (windowAt len xs i).length := by omega
  have hidx : (i + 1 - len) + (i - (i + 1 - len)) = i := by omega
  have key : (windowAt len xs i).get ⟨i - (i + 1 - len), hjlt⟩ = xs.getD i PF.nan := by
    rw [List.getD_eq_getElem?_getD, List.getElem?_eq_getElem hi]
    simp only [windowAt, List.get_eq_getElem, List.getElem_drop, List.getElem_take,
      Option.getD_some]
    congr 1
  rw [← key]
  exact List.get_mem _ _ hjlt

/-- C6: at any index where the rolling stochastic window is full but the
rolling maximum equals the rolling minimum (flat RSI), the raw stochastic
value is undefined (`nan`) in both `calculate_stoch` (stoch_rsi.py /
main.py) and `calculate_stochastic_tradingview` (src/stochastic_rsi.py) —
never a fabricated `0` or an infinity. -/
theorem flat_window_stoch_undefined (xs : List PF) (len i : ℕ) (q : ℚ)
    (hmax : (rollingMax len xs).getD i PF.nan = PF.num q)
    (hmin : (rollingMin len xs).getD i PF.nan = PF.num q) :
    (calculate_stoch xs xs xs len).getD i PF.nan = PF.nan
    ∧ (calculate_stochastic_tradingview xs len).getD i PF.nan = PF.nan := by
  have hi : i < xs.length := by
    by_contra hcon
    push_neg at hcon
    rw [rollingMax, getD_range_map_ge _ _ _ _ hcon] at hmax
    exact absurd hmax (by simp)
  have hmaxf := hmax
  have hminf := hmin
  rw [rollingMax, getD_range_map _ _ _ _ hi] at hmaxf
  rw [rollingMin, getD_range_map _ _ _ _ hi] at hminf
  by_cases hfull : i + 1 < len
  · rw [if_pos hfull] at hmaxf
    exact absurd hmaxf (by simp)
  · rw [if_neg hfull] at hmaxf hminf
    have hlen : 0 < len := by
      rcases Nat.eq_zero_or_pos len with h0 | h0
      · subst h0
        rw [windowAt, List.drop_eq_nil_of_le (by rw [List.length_take]; omega)] at hmaxf
        exact absurd hmaxf (by simp)
      · exact h0
    have hx : xs.getD i PF.nan = PF.num q :=
      window_all_eq _ q hmaxf hminf _ (getD_mem_windowAt len xs i hi hlen)
    constructor
    · simp only [calculate_stoch]
      rw [getD_range_map _ _ _ _ hi, hx, hmax, hmin]
      norm_num [PF.sub, PF.add, PF.neg, PF.div, PF.mul, replaceInfWith]
    · simp only [calculate_stochastic_tradingview]
      rw [getD_range_map _ _ _ _ hi, hx, hmax, hmin]
      norm_num [PF.sub, PF.add, PF.neg, PF.div, PF.mul, replaceInfWith]

/-- Witness for C6: fourteen flat RSI values at 50 with a full 14-bar
window give equal rolling extremes, and both stochastic variants report
`nan` at the last index. -/
theorem flat_window_stoch_undefined_witness :
    (calculate_stoch (List.replicate 14 (PF.num 50)) (List.replicate 14 (PF.num 50))
      (List.replicate 14 (PF.num 50)) 14).getD 13 PF.nan = PF.nan
    ∧ (calculate_stochastic_tradingview (List.replicate 14 (PF.num 50)) 14).getD 13
      PF.nan = PF.nan :=
  flat_window_stoch_undefined (List.replicate 14 (PF.num 50)) 14 13 50
    (by norm_num [rollingMax, windowAt, List.range_succ, List.replicate, pfMax])
    (by norm_num [rollingMin, windowAt, List.range_succ, List.replicate, pfMin])

/-- Strictly increasing close prices used to exercise the
`avg_loss == 0, avg_gain > 0` edge of the RSI engines. -/
def risingCloses : List ℚ :=
  [1, 2, 3, 4, 5, 6, 7, 8, 9, 10, 11, 12, 13, 14, 15]

/-- C7: on strictly rising closes with period 14 the Wilder-smoothed
average loss is exactly `0` and the average gain is positive past the
warm-up boundary; there `calculate_rsi` (stoch_rsi.py / main.py) yields
exactly 100 as the claim demands, but `calculate_rsi_tradingview`
(src/stochastic_rsi.py) — despite its docstring promising the exact
TradingView semantics — replaces the infinite `rs` with `nan` and returns
an undefined RSI instead of 100. -/
theorem rsi_avg_loss_zero_divergence :
    (avgLoss 14 risingCloses).getD 14 PF.nan = PF.num 0
    ∧ PF.lt (PF.num 0) ((avgGain 14 risingCloses).getD 14 PF.nan) = true
    ∧ (calculate_rsi risingCloses 14).getD 14 PF.nan = PF.num 100
    ∧ (calculate_rsi_tradingview risingCloses 14).getD 14 PF.nan = PF.nan := by
  refine ⟨?_, ?_, ?_, ?_⟩ <;>
    norm_num [calculate_rsi, calculate_rsi_tradingview, avgGain, avgLoss,
      maskMinPeriods, ewmAdjFalse, ewmGo, gainsOf, lossesOf, risingCloses,
      List.range_succ, replaceInfWith,
      PF.sub, PF.add, PF.neg, PF.div, PF.mul, PF.lt]
